import Mathlib

/-!
Verification of the food-analysis core pipelines of the repository
(`food_analyzer`): the ensemble aggregator
(`utils/enhanced_food_detector.py`), the learning cache
(`views.py::_apply_learning_corrections`,
`serializers.py::_update_learning_cache`), the nutrition resolver
(`utils/enhanced_nutrition_api.py`), and the statistics aggregator
(`views.py::_update_system_statistics`,
`views.py::_update_statistics_from_feedback`).

Python floats are modelled as rationals (`ℚ`); Python dicts keyed by
strings are modelled as insertion-ordered association lists, matching
CPython's ordered-dict semantics.  Python string methods used by the
code (`lower`, `strip`, `replace`, `title`, substring `in`) are
re-implemented on `List Char` so that every definition reduces on
concrete inputs.
-/

namespace FoodAnalyzer

/-- Python's builtin `min` on two numbers: the first argument when it is
not greater than the second.  Provably equal to Mathlib's `min` (see
`pymin_eq_min`); kept as an `if` so concrete runs reduce. -/
def pymin (a b : ℚ) : ℚ := if a ≤ b then a else b

/-- Python `str.lower()` (ASCII data). -/
def pyLower (s : String) : String := ⟨s.data.map Char.toLower⟩

/-- Characters-level part of Python `str.strip()`: drop whitespace at
both ends. -/
def stripChars (l : List Char) : List Char :=
  ((l.dropWhile Char.isWhitespace).reverse.dropWhile Char.isWhitespace).reverse

/-- Python `str.strip()`. -/
def pyStrip (s : String) : String := ⟨stripChars s.data⟩

/-- The normalization `name.lower().strip()` used for learning-cache
keys (views.py line 165, serializers.py lines 103-104). -/
def normName (s : String) : String := pyStrip (pyLower s)

/-- Python `str.replace('_', ' ')`: the pattern and the replacement are
single characters, so it is a character map. -/
def replaceUnderscore (s : String) : String :=
  ⟨s.data.map fun c => if c = '_' then ' ' else c⟩

/-- Python `str.title()` on character lists: an alphabetic character is
upper-cased when it follows a non-alphabetic one and lower-cased
otherwise; the boolean carries whether the previous character was
alphabetic. -/
def titleChars : Bool → List Char → List Char
  | _, [] => []
  | prevAlpha, c :: cs =>
    if c.isAlpha then
      (if prevAlpha then c.toLower else c.toUpper) :: titleChars true cs
    else
      c :: titleChars false cs

/-- Python `str.title()` (ASCII data). -/
def pyTitle (s : String) : String := ⟨titleChars false s.data⟩

/-- `as` is a prefix of `bs` (Boolean, executable). -/
def prefixOfChars : List Char → List Char → Bool
  | [], _ => true
  | _ :: _, [] => false
  | a :: as, b :: bs => a = b && prefixOfChars as bs

/-- `s` occurs as a contiguous substring of `l` (Boolean, executable).
The empty string occurs in every string, as in Python. -/
def substrChars : List Char → List Char → Bool
  | s, [] => s.isEmpty
  | s, b :: t => prefixOfChars s (b :: t) || substrChars s t

/-- Python's substring test `a in b`. -/
def pyIn (a b : String) : Bool := substrChars a.data b.data

/-! ### Ensemble aggregator (`utils/enhanced_food_detector.py`) -/

/-- One entry of the flat prediction list produced by
`get_model_predictions` (enhanced_food_detector.py, lines 176-184):
model name, image-variation name, predicted class, raw confidence and
the model's ensemble weight. -/
structure Pred where
  model : String
  variation : String
  class_name : String
  confidence : ℚ
  weight : ℚ
deriving DecidableEq

/-- The per-class accumulator of `ensemble_prediction`
(enhanced_food_detector.py, lines 205-216): running total of
`confidence * weight`, number of observations, and max raw confidence. -/
structure ScoreData where
  total_score : ℚ
  count : ℕ
  max_confidence : ℚ
deriving DecidableEq

/-- One entry of the list returned by `ensemble_prediction`
(enhanced_food_detector.py, lines 226-231). -/
structure FinalPred where
  class_name : String
  confidence : ℚ
  max_confidence : ℚ
  model_agreement : ℕ
deriving DecidableEq

/-- One step of the grouping loop of `ensemble_prediction`
(enhanced_food_detector.py, lines 197-216): `class_scores` is a Python
dict, i.e. an insertion-ordered association list; an existing entry for
the class is updated in place, a missing one is appended at the end. -/
def updateScores : List (String × ScoreData) → Pred → List (String × ScoreData)
  | [], p => [(p.class_name, ⟨p.confidence * p.weight, 1, p.confidence⟩)]
  | (k, d) :: rest, p =>
    if k = p.class_name then
      (k, ⟨d.total_score + p.confidence * p.weight, d.count + 1,
           max d.max_confidence p.confidence⟩) :: rest
    else
      (k, d) :: updateScores rest p

/-- The grouping loop of `ensemble_prediction` over the whole flat
prediction list (enhanced_food_detector.py, lines 195-216). -/
def groupScores (preds : List Pred) : List (String × ScoreData) :=
  preds.foldl updateScores []

/-- The final-score computation of `ensemble_prediction`
(enhanced_food_detector.py, lines 219-231): mean weighted score plus
`min(count / numModels, 1.0) * 0.1` agreement bonus.  `numModels` is
`len(self.models)`. -/
def finalizeScores (numModels : ℕ) (scores : List (String × ScoreData)) :
    List FinalPred :=
  scores.map fun kv =>
    { class_name := kv.1
      confidence := kv.2.total_score / (kv.2.count : ℚ) +
        pymin ((kv.2.count : ℚ) / (numModels : ℚ)) 1 * (1 / 10)
      max_confidence := kv.2.max_confidence
      model_agreement := kv.2.count }

/-- Stable insertion of one element into a list sorted by `confidence`
descending: the element goes before the first entry whose confidence is
not greater, which is exactly where Python's stable
`final_predictions.sort(key=lambda x: x['confidence'], reverse=True)`
places it relative to equal keys. -/
def insertDesc (x : FinalPred) : List FinalPred → List FinalPred
  | [] => [x]
  | y :: ys =>
    if y.confidence ≤ x.confidence then x :: y :: ys
    else y :: insertDesc x ys

/-- Stable descending sort by `confidence`, modelling
`final_predictions.sort(key=lambda x: x['confidence'], reverse=True)`
(enhanced_food_detector.py, line 234).  A stable sort is fully
determined by the key order, so this insertion sort returns exactly the
list CPython's Timsort returns. -/
def sortDesc : List FinalPred → List FinalPred
  | [] => []
  | x :: xs => insertDesc x (sortDesc xs)

/-- `ensemble_prediction` (enhanced_food_detector.py, lines 192-235):
group the flat prediction list by class name, compute the final scores,
and sort by final score descending. -/
def ensemblePrediction (numModels : ℕ) (preds : List Pred) : List FinalPred :=
  sortDesc (finalizeScores numModels (groupScores preds))

/-- Sum of `raw_confidence * model_weight` over all predictions of one
class: the reference value the grouped `total_score` must equal. -/
def weightedSum (preds : List Pred) (c : String) : ℚ :=
  ((preds.filter fun p => p.class_name = c).map
    fun p => p.confidence * p.weight).sum

/-- Number of predictions carrying the given class label. -/
def obsCount (preds : List Pred) (c : String) : ℕ :=
  (preds.filter fun p => p.class_name = c).length

/-! ### Learning cache lookup (`views.py::_apply_learning_corrections`) -/

/-- One row of the `LearningCache` table (models.py, lines 199-226).
`last_seen` is modelled as an abstract timestamp ordinal. -/
structure LearningCacheEntry where
  predicted_food : String
  correct_food : String
  occurrence_count : ℕ
  confidence_boost : ℚ
  last_seen : ℕ
deriving DecidableEq

/-- `e` does not rank above `b` in the
`order_by('-occurrence_count', '-last_seen')` ordering: strictly fewer
occurrences, or equally many and a last_seen that is not more recent. -/
def leEntry (e b : LearningCacheEntry) : Prop :=
  e.occurrence_count < b.occurrence_count ∨
    (e.occurrence_count = b.occurrence_count ∧ e.last_seen ≤ b.last_seen)

/-- One comparison step of the best-row scan: keep the candidate unless
the next row ranks strictly higher. -/
def selectBestStep (best : Option LearningCacheEntry)
    (e : LearningCacheEntry) : Option LearningCacheEntry :=
  match best with
  | none => some e
  | some b =>
    if b.occurrence_count < e.occurrence_count ∨
        (e.occurrence_count = b.occurrence_count ∧ b.last_seen < e.last_seen)
    then some e else some b

/-- The queryset
`filter(predicted_food=...).order_by('-occurrence_count', '-last_seen').first()`
(views.py, lines 164-169): among the matching rows, the one greatest in
the lexicographic order (occurrence_count, last_seen), scanning left to
right and replacing the candidate only on a strict improvement. -/
def selectBest (l : List LearningCacheEntry) : Option LearningCacheEntry :=
  l.foldl selectBestStep none

/-- `_apply_learning_corrections` (views.py, lines 160-183): normalize
the predicted name, find matching learning-cache rows, and if any
exist return the best correction title-cased with confidence boosted by
`min(confidence * confidence_boost, 95.0)`; otherwise return the input
unchanged.  `db` is the `LearningCache` table. -/
def applyLearningCorrections (db : List LearningCacheEntry)
    (food_name : String) (confidence : ℚ) : String × ℚ :=
  let hits := db.filter fun e => e.predicted_food = normName food_name
  match selectBest hits with
  | some best =>
    (pyTitle best.correct_food, pymin (confidence * best.confidence_boost) 95)
  | none => (food_name, confidence)

/-! ### Learning cache update (`serializers.py::_update_learning_cache`) -/

/-- The mutable statistics of one learning-cache row touched by
`_update_learning_cache`. -/
structure CacheStats where
  occurrence_count : ℕ
  average_original_confidence : ℚ
deriving DecidableEq

/-- The `get_or_create` plus in-place update of `_update_learning_cache`
(serializers.py, lines 102-118) on the cache viewed as an association
list keyed by the normalized (predicted_food, correct_food) pair: a
missing entry is created with count 1 and average equal to the submitted
confidence; an existing entry gets its count incremented and its average
recomputed as `(avg * (count - 1) + value) / count` with the
post-increment count. -/
def cacheGetOrCreate :
    List ((String × String) × CacheStats) → (String × String) → ℚ →
      List ((String × String) × CacheStats)
  | [], key, conf => [(key, ⟨1, conf⟩)]
  | (k, e) :: rest, key, conf =>
    if k = key then
      (k, ⟨e.occurrence_count + 1,
           (e.average_original_confidence * (((e.occurrence_count + 1 : ℕ) : ℚ) - 1)
              + conf) / ((e.occurrence_count + 1 : ℕ) : ℚ)⟩) :: rest
    else
      (k, e) :: cacheGetOrCreate rest key conf

/-- `_update_learning_cache` (serializers.py, lines 97-118): names are
normalized with `.lower().strip()` before the keyed get-or-create. -/
def updateLearningCache (db : List ((String × String) × CacheStats))
    (predicted_food correct_food : String) (original_confidence : ℚ) :
    List ((String × String) × CacheStats) :=
  cacheGetOrCreate db (normName predicted_food, normName correct_food)
    original_confidence

/-- A sequence of corrective feedback submissions for one
(predicted_food, correct_food) pair, applied in order to the cache. -/
def processCorrections (db : List ((String × String) × CacheStats))
    (predicted_food correct_food : String) (confs : List ℚ) :
    List ((String × String) × CacheStats) :=
  confs.foldl
    (fun db c => updateLearningCache db predicted_food correct_food c) db

/-! ### Nutrition resolver (`utils/enhanced_nutrition_api.py`) -/

/-- A nutrition record as the Python code passes it around: a dict whose
fields may be absent (`.get(field, 0)` supplies the default), plus the
source tag. -/
structure NutDict where
  calories : Option ℚ
  protein : Option ℚ
  fat : Option ℚ
  carbs : Option ℚ
  fiber : Option ℚ
  sugar : Option ℚ
  sodium : Option ℚ
  source : String
deriving DecidableEq

/-- A fully-populated nutrition dict in the field order of the literals
in enhanced_nutrition_api.py. -/
def mkNut (calories protein fat carbs fiber sugar sodium : ℚ)
    (source : String) : NutDict :=
  ⟨some calories, some protein, some fat, some carbs, some fiber,
   some sugar, some sodium, source⟩

/-- The static `mock_data` table of `_get_mock_nutrition_data`
(enhanced_nutrition_api.py, lines 284-301), in source order.  The
`source` field is empty here because the code tags the copied dict only
after lookup. -/
def mockTable : List (String × NutDict) :=
  [("pizza", mkNut 266 11 10 33 (23/10) (36/10) 598 ""),
   ("hamburger", mkNut 295 17 14 28 (21/10) 4 396 ""),
   ("burger", mkNut 295 17 14 28 (21/10) 4 396 ""),
   ("sushi", mkNut 200 9 7 28 1 2 400 ""),
   ("chocolate cake", mkNut 371 4 16 56 3 45 320 ""),
   ("cake", mkNut 371 4 16 56 3 45 320 ""),
   ("french fries", mkNut 365 4 17 48 4 (3/10) 400 ""),
   ("fries", mkNut 365 4 17 48 4 (3/10) 400 ""),
   ("chicken", mkNut 239 27 14 0 0 0 82 ""),
   ("ice cream", mkNut 207 4 11 24 (5/10) 21 80 ""),
   ("apple", mkNut 52 (3/10) (2/10) 14 (24/10) (104/10) 1 ""),
   ("banana", mkNut 89 (11/10) (3/10) 23 (26/10) (122/10) 1 ""),
   ("rice", mkNut 130 (27/10) (3/10) 28 (4/10) (1/10) 5 ""),
   ("bread", mkNut 265 9 (32/10) 49 (27/10) (57/10) 491 ""),
   ("pasta", mkNut 131 5 (11/10) 25 (18/10) (8/10) 6 ""),
   ("salad", mkNut 15 (14/10) (1/10) 3 (13/10) (15/10) 28 "")]

/-- The name cleaning of `_get_mock_nutrition_data`
(enhanced_nutrition_api.py, line 304):
`food_name.lower().replace('_', ' ').strip()`. -/
def mockClean (food_name : String) : String :=
  pyStrip (replaceUnderscore (pyLower food_name))

/-- The fixed default record of `_get_mock_nutrition_data`
(enhanced_nutrition_api.py, lines 320-329). -/
def defaultFallbackNutrition : NutDict :=
  mkNut 200 10 8 25 2 5 100 "default_fallback"

/-- `_get_mock_nutrition_data` (enhanced_nutrition_api.py, lines
282-329): clean the name, try an exact table hit, then the first table
key related to the cleaned name by substring in either direction, and
finally the fixed default record. -/
def getMockNutritionData (food_name : String) : NutDict :=
  let clean := mockClean food_name
  match mockTable.find? (fun kv => kv.1 = clean) with
  | some kv => { kv.2 with source := "mock_data" }
  | none =>
    match mockTable.find? (fun kv => pyIn kv.1 clean || pyIn clean kv.1) with
    | some kv => { kv.2 with source := "mock_data" }
    | none => defaultFallbackNutrition

/-- The decision core of `search_nutrition_google`
(enhanced_nutrition_api.py, lines 196-235), as a function of which of
the four macro figures the regular expressions extracted: with at least
2 of the 4 fields found, the partial dict is completed with
fiber/sugar/sodium 0 and tagged `google_search`; otherwise the source
yields nothing.  An absent calories figure stays absent in the returned
dict. -/
def searchNutritionGoogle (calories protein carbs fat : Option ℚ) :
    Option NutDict :=
  let found := [calories, protein, carbs, fat].countP Option.isSome
  if 2 ≤ found then
    some { calories := calories, protein := protein, carbs := carbs,
           fat := fat, fiber := some 0, sugar := some 0, sodium := some 0,
           source := "google_search" }
  else none

/-- The source loop of `get_comprehensive_nutrition`
(enhanced_nutrition_api.py, lines 262-277): walk the per-source results
in order (`None` standing for a source that failed, timed out or threw)
and accept the first dict whose `calories` value (`.get('calories', 0)`)
is strictly positive. -/
def firstUsable : List (Option NutDict) → Option NutDict
  | [] => none
  | r :: rs =>
    match r with
    | some d => if 0 < d.calories.getD 0 then some d else firstUsable rs
    | none => firstUsable rs

/-- `get_comprehensive_nutrition` on a cache miss
(enhanced_nutrition_api.py, lines 253-280): try the sources in order,
and fall back to `_get_mock_nutrition_data` when none yields a usable
record.  `sourceResults` abstracts the network: the values the source
functions return, in chain order (USDA, OpenFoodFacts, Google). -/
def getComprehensiveNutrition (sourceResults : List (Option NutDict))
    (food_name : String) : NutDict :=
  match firstUsable sourceResults with
  | some d => d
  | none => getMockNutritionData food_name

/-! ### Statistics aggregator (`views.py`) -/

/-- One `SystemStatistics` row (models.py, lines 134-196): per-day
running aggregates. -/
structure Stats where
  total_predictions : ℕ
  correct_predictions : ℕ
  accuracy_rate : ℚ
  high_confidence_predictions : ℕ
  high_confidence_correct : ℕ
  medium_confidence_predictions : ℕ
  medium_confidence_correct : ℕ
  low_confidence_predictions : ℕ
  low_confidence_correct : ℕ
  total_corrections : ℕ
  total_confirmations : ℕ
  total_nutrition_searches : ℕ
  successful_nutrition_searches : ℕ
  average_processing_time : ℚ
deriving DecidableEq

/-- The freshly created row of `get_or_create`: every model field
defaults to zero (models.py, lines 139-160). -/
def zeroStats : Stats := ⟨0, 0, 0, 0, 0, 0, 0, 0, 0, 0, 0, 0, 0, 0⟩

/-- `_update_system_statistics` (views.py, lines 185-229) on an existing
row: bump the total, the matching confidence-tier bucket (≥80 high,
≥60 medium, else low), the processing-time running mean, the nutrition
search counters (`successful` unless the source tag is
`default_fallback` or `mock_data`), and recompute the accuracy rate. -/
def updateSystemStatistics (s : Stats) (confidence processing_time : ℚ)
    (data_source : String) : Stats :=
  let s1 := { s with total_predictions := s.total_predictions + 1 }
  let s2 :=
    if 80 ≤ confidence then
      { s1 with high_confidence_predictions := s1.high_confidence_predictions + 1 }
    else if 60 ≤ confidence then
      { s1 with medium_confidence_predictions := s1.medium_confidence_predictions + 1 }
    else
      { s1 with low_confidence_predictions := s1.low_confidence_predictions + 1 }
  let s3 :=
    if s2.total_predictions = 1 then
      { s2 with average_processing_time := processing_time }
    else
      { s2 with average_processing_time :=
          (s2.average_processing_time * ((s2.total_predictions : ℚ) - 1)
            + processing_time) / (s2.total_predictions : ℚ) }
  let s4 := { s3 with total_nutrition_searches := s3.total_nutrition_searches + 1 }
  let s5 :=
    if data_source ≠ "default_fallback" ∧ data_source ≠ "mock_data" then
      { s4 with successful_nutrition_searches := s4.successful_nutrition_searches + 1 }
    else s4
  if 0 < s5.total_predictions then
    { s5 with accuracy_rate :=
        ((s5.correct_predictions : ℚ) / (s5.total_predictions : ℚ)) * 100 }
  else s5

/-- `_update_statistics_from_feedback` (views.py, lines 369-403) on an
existing row: `perfect`/`confirmation` feedback bumps
`correct_predictions`, `total_confirmations` and the matching tier
"correct" bucket; `correction`/`wrong` bumps `total_corrections`; the
accuracy rate is then recomputed when any prediction exists. -/
def updateStatisticsFromFeedback (s : Stats) (feedback_type : String)
    (original_confidence : ℚ) : Stats :=
  let s1 :=
    if feedback_type = "perfect" ∨ feedback_type = "confirmation" then
      let t := { s with correct_predictions := s.correct_predictions + 1,
                        total_confirmations := s.total_confirmations + 1 }
      if 80 ≤ original_confidence then
        { t with high_confidence_correct := t.high_confidence_correct + 1 }
      else if 60 ≤ original_confidence then
        { t with medium_confidence_correct := t.medium_confidence_correct + 1 }
      else
        { t with low_confidence_correct := t.low_confidence_correct + 1 }
    else if feedback_type = "correction" ∨ feedback_type = "wrong" then
      { s with total_corrections := s.total_corrections + 1 }
    else s
  if 0 < s1.total_predictions then
    { s1 with accuracy_rate :=
        ((s1.correct_predictions : ℚ) / (s1.total_predictions : ℚ)) * 100 }
  else s1

/-- One operation touching the daily statistics row: a recorded
prediction (`_update_system_statistics`) or a feedback submission
(`_update_statistics_from_feedback`). -/
inductive StatsOp where
  | prediction (confidence processing_time : ℚ) (data_source : String)
  | feedback (feedback_type : String) (original_confidence : ℚ)

/-- Apply one statistics operation. -/
def applyStatsOp (s : Stats) : StatsOp → Stats
  | .prediction confidence processing_time data_source =>
    updateSystemStatistics s confidence processing_time data_source
  | .feedback feedback_type original_confidence =>
    updateStatisticsFromFeedback s feedback_type original_confidence

/-- Run a day's worth of operations from the zero-initialized row. -/
def runStatsOps (ops : List StatsOp) : Stats :=
  ops.foldl applyStatsOp zeroStats

/-! ## Theorems -/

theorem pymin_eq_min (a b : ℚ) : pymin a b = min a b := by
  simp [pymin, min_def]

theorem weightedSum_append (preds : List Pred) (p : Pred) (c : String) :
    weightedSum (preds ++ [p]) c =
      weightedSum preds c +
        (if p.class_name = c then p.confidence * p.weight else 0) := by
  by_cases h : p.class_name = c <;>
    simp [weightedSum, List.filter_append, h]

theorem obsCount_append (preds : List Pred) (p : Pred) (c : String) :
    obsCount (preds ++ [p]) c =
      obsCount preds c + (if p.class_name = c then 1 else 0) := by
  by_cases h : p.class_name = c <;>
    simp [obsCount, List.filter_append, h]

theorem weightedSum_of_obsCount_zero (preds : List Pred) (c : String)
    (h : obsCount preds c = 0) : weightedSum preds c = 0 := by
  have hf : (preds.filter fun p => p.class_name = c) = [] :=
    List.length_eq_zero.mp h
  simp [weightedSum, hf]

theorem updateScores_map_fst (p : Pred) :
    ∀ acc : List (String × ScoreData),
      (updateScores acc p).map Prod.fst =
        if p.class_name ∈ acc.map Prod.fst then acc.map Prod.fst
        else acc.map Prod.fst ++ [p.class_name]
  | [] => by simp [updateScores]
  | (k, d) :: rest => by
    by_cases hk : k = p.class_name
    · simp [updateScores, hk]
    · have ih := updateScores_map_fst p rest
      have hne : ¬p.class_name = k := fun h => hk h.symm
      by_cases hmem : p.class_name ∈ rest.map Prod.fst <;>
        simp [updateScores, hk, ih, hne, hmem]

theorem updateScores_stats (preds : List Pred) (p : Pred)
    (acc : List (String × ScoreData))
    (hnd : (acc.map Prod.fst).Nodup)
    (hstats : ∀ kv ∈ acc, kv.2.total_score = weightedSum preds kv.1 ∧
      kv.2.count = obsCount preds kv.1 ∧ 0 < kv.2.count)
    (habs : p.class_name ∉ acc.map Prod.fst → obsCount preds p.class_name = 0) :
    ∀ kv ∈ updateScores acc p,
      kv.2.total_score = weightedSum (preds ++ [p]) kv.1 ∧
      kv.2.count = obsCount (preds ++ [p]) kv.1 ∧ 0 < kv.2.count := by
  induction acc with
  | nil =>
    intro kv hkv
    have h0 : obsCount preds p.class_name = 0 := habs (by simp)
    have h0' : weightedSum preds p.class_name = 0 :=
      weightedSum_of_obsCount_zero preds p.class_name h0
    simp only [updateScores, List.mem_singleton] at hkv
    subst hkv
    simp [weightedSum_append, obsCount_append, h0, h0']
  | cons hd rest ih =>
    obtain ⟨k, d⟩ := hd
    intro kv hkv
    have hknotin : k ∉ rest.map Prod.fst := by
      have h := hnd
      simp only [List.map_cons, List.nodup_cons] at h
      exact h.1
    by_cases hk : k = p.class_name
    · simp only [updateScores, if_pos hk, List.mem_cons] at hkv
      rcases hkv with hkv | hkv
      · have hd := hstats (k, d) (by simp)
        simp only at hd
        subst hkv
        refine ⟨?_, ?_, ?_⟩
        · simp only [weightedSum_append, if_pos hk.symm, hd.1]
        · simp only [obsCount_append, if_pos hk.symm, hd.2.1]
        · exact Nat.lt_of_lt_of_le hd.2.2 (Nat.le_succ _)
      · have hne : kv.1 ≠ p.class_name := by
          intro h
          refine hknotin ?_
          rw [hk, ← h]
          exact List.mem_map_of_mem Prod.fst hkv
        have hst := hstats kv (List.mem_cons_of_mem _ hkv)
        refine ⟨?_, ?_, hst.2.2⟩
        · rw [weightedSum_append, if_neg (fun h => hne h.symm), add_zero]
          exact hst.1
        · rw [obsCount_append, if_neg (fun h => hne h.symm), Nat.add_zero]
          exact hst.2.1
    · simp only [updateScores, if_neg hk, List.mem_cons] at hkv
      rcases hkv with hkv | hkv
      · have hst := hstats (k, d) (by simp)
        subst hkv
        refine ⟨?_, ?_, hst.2.2⟩
        · rw [weightedSum_append, if_neg (fun h => hk h.symm), add_zero]
          exact hst.1
        · rw [obsCount_append, if_neg (fun h => hk h.symm), Nat.add_zero]
          exact hst.2.1
      · have hnd' : (rest.map Prod.fst).Nodup := by
          have h := hnd
          simp only [List.map_cons, List.nodup_cons] at h
          exact h.2
        have habs' : p.class_name ∉ rest.map Prod.fst →
            obsCount preds p.class_name = 0 := by
          intro hnotin
          refine habs ?_
          simp only [List.map_cons, List.mem_cons]
          rintro (h | h)
          · exact hk h.symm
          · exact hnotin h
        exact ih hnd'
          (fun kv' hkv' => hstats kv' (List.mem_cons_of_mem _ hkv'))
          habs' kv hkv

theorem groupScores_inv (preds : List Pred) :
    ((groupScores preds).map Prod.fst).Nodup ∧
    (∀ kv ∈ groupScores preds, kv.2.total_score = weightedSum preds kv.1 ∧
      kv.2.count = obsCount preds kv.1 ∧ 0 < kv.2.count) ∧
    (∀ c, c ∉ (groupScores preds).map Prod.fst → obsCount preds c = 0) := by
  induction preds using List.reverseRecOn with
  | nil =>
    refine ⟨by simp [groupScores], by simp [groupScores], ?_⟩
    intro c _
    simp [obsCount]
  | append_singleton preds p ih =>
    obtain ⟨hnd, hstats, habs⟩ := ih
    have hgrp : groupScores (preds ++ [p]) = updateScores (groupScores preds) p := by
      simp [groupScores, List.foldl_append]
    have hfst := updateScores_map_fst p (groupScores preds)
    refine ⟨?_, ?_, ?_⟩
    · rw [hgrp, hfst]
      by_cases hmem : p.class_name ∈ (groupScores preds).map Prod.fst
      · simpa [hmem] using hnd
      · simp only [if_neg hmem]
        refine List.Nodup.append hnd (List.nodup_singleton _) ?_
        intro a ha hamem
        rw [List.mem_singleton] at hamem
        subst hamem
        exact hmem ha
    · rw [hgrp]
      exact updateScores_stats preds p (groupScores preds) hnd hstats
        (fun hnotin => habs _ hnotin)
    · intro c hc
      rw [hgrp, hfst] at hc
      have hcold : c ∉ (groupScores preds).map Prod.fst := by
        by_cases hmem : p.class_name ∈ (groupScores preds).map Prod.fst
        · simpa [hmem] using hc
        · simp only [if_neg hmem, List.mem_append] at hc
          exact fun h => hc (Or.inl h)
      have hcp : c ≠ p.class_name := by
        by_cases hmem : p.class_name ∈ (groupScores preds).map Prod.fst
        · intro h; exact hcold (h ▸ hmem)
        · simp only [if_neg hmem, List.mem_append, List.mem_singleton] at hc
          exact fun h => hc (Or.inr h)
      rw [obsCount_append, if_neg (fun h => hcp h.symm), Nat.add_zero]
      exact habs c hcold

theorem mem_insertDesc (x a : FinalPred) :
    ∀ l : List FinalPred, a ∈ insertDesc x l ↔ a = x ∨ a ∈ l
  | [] => by simp [insertDesc]
  | y :: ys => by
    by_cases h : y.confidence ≤ x.confidence
    · simp [insertDesc, h]
    · simp only [insertDesc, if_neg h, List.mem_cons, mem_insertDesc x a ys]
      tauto

theorem mem_sortDesc (a : FinalPred) :
    ∀ l : List FinalPred, a ∈ sortDesc l ↔ a ∈ l
  | [] => by simp [sortDesc]
  | x :: xs => by
    simp only [sortDesc, mem_insertDesc, List.mem_cons, mem_sortDesc a xs]

theorem pairwise_insertDesc (x : FinalPred) :
    ∀ l : List FinalPred,
      l.Pairwise (fun a b => b.confidence ≤ a.confidence) →
      (insertDesc x l).Pairwise (fun a b => b.confidence ≤ a.confidence)
  | [], _ => by simp [insertDesc]
  | y :: ys, h => by
    rcases List.pairwise_cons.mp h with ⟨hy, hys⟩
    by_cases hc : y.confidence ≤ x.confidence
    · rw [insertDesc, if_pos hc]
      refine List.pairwise_cons.mpr ⟨?_, h⟩
      intro b hb
      rcases List.mem_cons.mp hb with hb | hb
      · exact hb ▸ hc
      · exact le_trans (hy b hb) hc
    · rw [insertDesc, if_neg hc]
      refine List.pairwise_cons.mpr ⟨?_, pairwise_insertDesc x ys hys⟩
      intro b hb
      rcases (mem_insertDesc x b ys).mp hb with hb | hb
      · exact hb ▸ le_of_lt (lt_of_not_le hc)
      · exact hy b hb

theorem pairwise_sortDesc :
    ∀ l : List FinalPred,
      (sortDesc l).Pairwise (fun a b => b.confidence ≤ a.confidence)
  | [] => by simp [sortDesc]
  | x :: xs => pairwise_insertDesc x (sortDesc xs) (pairwise_sortDesc xs)

/-- **C1.** Every entry of the aggregated ensemble output carries as its
final score the mean weighted score of its class — the sum of
`raw_confidence × model_weight` over the class's observations divided by
the observation count — plus the agreement bonus
`min(observation_count / total_model_count, 1.0) × 0.1`. -/
theorem c1_ensemble_final_score (numModels : ℕ) (preds : List Pred)
    (e : FinalPred) (he : e ∈ ensemblePrediction numModels preds) :
    e.confidence =
      weightedSum preds e.class_name / (obsCount preds e.class_name : ℚ) +
        min ((obsCount preds e.class_name : ℚ) / (numModels : ℚ)) 1 * (1 / 10) := by
  obtain ⟨_, hstats, _⟩ := groupScores_inv preds
  rw [ensemblePrediction, mem_sortDesc] at he
  simp only [finalizeScores, List.mem_map] at he
  obtain ⟨kv, hkv, rfl⟩ := he
  have hst := hstats kv hkv
  simp only
  rw [hst.1, hst.2.1, pymin_eq_min]

/-- Witness for C1: a one-prediction run, evaluated concretely. -/
theorem c1_ensemble_final_score_witness :
    (⟨"pizza", 991/3000, 9/10, 1⟩ : FinalPred) ∈
        ensemblePrediction 3 [⟨"resnet50", "original", "pizza", 9/10, 33/100⟩] ∧
      (⟨"pizza", 991/3000, 9/10, 1⟩ : FinalPred).confidence =
        weightedSum [⟨"resnet50", "original", "pizza", 9/10, 33/100⟩] "pizza" /
            (obsCount [⟨"resnet50", "original", "pizza", 9/10, 33/100⟩] "pizza" : ℚ) +
          min ((obsCount [⟨"resnet50", "original", "pizza", 9/10, 33/100⟩] "pizza" : ℚ) /
              ((3 : ℕ) : ℚ)) 1 * (1 / 10) := by
  have hmem : (⟨"pizza", 991/3000, 9/10, 1⟩ : FinalPred) ∈
      ensemblePrediction 3 [⟨"resnet50", "original", "pizza", 9/10, 33/100⟩] := by
    norm_num [ensemblePrediction, groupScores, updateScores, finalizeScores,
      sortDesc, insertDesc, pymin]
  exact ⟨hmem, c1_ensemble_final_score 3 _ _ hmem⟩

/-- **C6 counterexample.** On the scenario input — three models with
equal weight 0.33, one saying "pizza" at 0.9, two saying "hot dog" at
0.5 and 0.6 — the aggregator ranks "pizza" first, not "hot dog": the
code divides the summed weighted score by the observation count, so the
agreement bonus (at most 0.1) cannot make "hot dog" overtake "pizza". -/
theorem c6_scenario_pizza_wins :
    (ensemblePrediction 3
        [⟨"resnet50", "original", "pizza", 9/10, 33/100⟩,
         ⟨"efficientnet", "original", "hot dog", 1/2, 33/100⟩,
         ⟨"inception", "original", "hot dog", 3/5, 33/100⟩]).map
      FinalPred.class_name = ["pizza", "hot dog"] := by
  norm_num [ensemblePrediction, groupScores, updateScores, finalizeScores,
    sortDesc, insertDesc, pymin]

/-- **C6 (amended).** On the scenario input, "pizza" wins: its final
score 991/3000 ≈ 0.3303 (mean weighted score 0.297 plus bonus 1/30)
exceeds "hot dog"'s 1489/6000 ≈ 0.2482 (mean weighted score 0.1815 plus
bonus 1/15), so the output ranks "pizza" above "hot dog" despite "hot
dog"'s two-model agreement. -/
theorem c6_scenario_scores :
    (ensemblePrediction 3
        [⟨"resnet50", "original", "pizza", 9/10, 33/100⟩,
         ⟨"efficientnet", "original", "hot dog", 1/2, 33/100⟩,
         ⟨"inception", "original", "hot dog", 3/5, 33/100⟩]).map
        (fun e => (e.class_name, e.confidence)) =
      [("pizza", 991/3000), ("hot dog", 1489/6000)] ∧
    (1489/6000 : ℚ) < 991/3000 := by
  constructor
  · norm_num [ensemblePrediction, groupScores, updateScores, finalizeScores,
      sortDesc, insertDesc, pymin]
  · norm_num

/-- **C7 (amended).** The aggregated output is sorted by final score in
non-increasing order; the code supplies no further tie-breakers — the
sort is stable on equal final scores (see `c7_no_tiebreak_on_count`). -/
theorem c7_output_sorted_desc (numModels : ℕ) (preds : List Pred) :
    (ensemblePrediction numModels preds).Pairwise
      (fun a b => b.confidence ≤ a.confidence) :=
  pairwise_sortDesc _

/-- **C7 counterexample.** Two classes tie at final score 7/20, and the
output keeps the class with observation count 1 before the class with
observation count 2 (insertion order), refuting the claimed tie-break by
higher observation count. -/
theorem c7_no_tiebreak_on_count :
    (ensemblePrediction 2
        [⟨"m1", "original", "a", 3/5, 1/2⟩,
         ⟨"m1", "original", "b", 1/2, 1/2⟩,
         ⟨"m2", "original", "b", 1/2, 1/2⟩]).map
        (fun e => (e.confidence, e.model_agreement)) =
      [(7/20, 1), (7/20, 2)] := by
  norm_num [ensemblePrediction, groupScores, updateScores, finalizeScores,
    sortDesc, insertDesc, pymin]

theorem leEntry_refl (a : LearningCacheEntry) : leEntry a a :=
  Or.inr ⟨rfl, le_refl _⟩

theorem leEntry_trans {a b c : LearningCacheEntry}
    (h1 : leEntry a b) (h2 : leEntry b c) : leEntry a c := by
  simp only [leEntry] at *
  omega

theorem selectBest_go (t : List LearningCacheEntry) :
    ∀ b : LearningCacheEntry,
      ∃ r, List.foldl selectBestStep (some b) t = some r ∧
        (r = b ∨ r ∈ t) ∧ leEntry b r ∧ ∀ e ∈ t, leEntry e r := by
  induction t with
  | nil =>
    intro b
    exact ⟨b, rfl, Or.inl rfl, leEntry_refl b, by simp⟩
  | cons e t ih =>
    intro b
    rw [List.foldl_cons]
    by_cases hc : b.occurrence_count < e.occurrence_count ∨
        (e.occurrence_count = b.occurrence_count ∧ b.last_seen < e.last_seen)
    · have hstep : selectBestStep (some b) e = some e := by
        simp only [selectBestStep, if_pos hc]
      rw [hstep]
      obtain ⟨r, hr, hmem, hbr, hall⟩ := ih e
      have hbe : leEntry b e := by
        simp only [leEntry]
        omega
      refine ⟨r, hr, ?_, leEntry_trans hbe hbr, ?_⟩
      · rcases hmem with h | h
        · exact Or.inr (h ▸ List.mem_cons_self e t)
        · exact Or.inr (List.mem_cons_of_mem _ h)
      · intro x hx
        rcases List.mem_cons.mp hx with h | h
        · exact h ▸ hbr
        · exact hall x h
    · have hstep : selectBestStep (some b) e = some b := by
        simp only [selectBestStep, if_neg hc]
      rw [hstep]
      obtain ⟨r, hr, hmem, hbr, hall⟩ := ih b
      have heb : leEntry e b := by
        simp only [leEntry]
        omega
      refine ⟨r, hr, ?_, hbr, ?_⟩
      · rcases hmem with h | h
        · exact Or.inl h
        · exact Or.inr (List.mem_cons_of_mem _ h)
      · intro x hx
        rcases List.mem_cons.mp hx with h | h
        · exact h ▸ leEntry_trans heb hbr
        · exact hall x h

theorem selectBest_spec (l : List LearningCacheEntry)
    (r : LearningCacheEntry) (h : selectBest l = some r) :
    r ∈ l ∧ ∀ e ∈ l, leEntry e r := by
  cases l with
  | nil => simp [selectBest] at h
  | cons e t =>
    rw [selectBest, List.foldl_cons] at h
    have hfirst : selectBestStep none e = some e := rfl
    rw [hfirst] at h
    obtain ⟨r', hr', hmem, hbr, hall⟩ := selectBest_go t e
    rw [hr'] at h
    injection h with h
    subst h
    refine ⟨?_, ?_⟩
    · rcases hmem with h | h
      · exact h ▸ List.mem_cons_self e t
      · exact List.mem_cons_of_mem _ h
    · intro x hx
      rcases List.mem_cons.mp hx with h | h
      · exact h ▸ hbr
      · exact hall x h

/-- **C2.** The learning-cache lookup: with no row matching the
normalized name, the input passes through unchanged; otherwise the
returned correction comes from a matching row that every matching row
ranks at or below in the (occurrence_count, last_seen) order, the name
is title-cased, the confidence is boosted to
`min(confidence × confidence_boost, 95.0)`, and hence never exceeds
95.0. -/
theorem c2_apply_learning_corrections (db : List LearningCacheEntry)
    (food_name : String) (confidence : ℚ) :
    ((db.filter fun e => e.predicted_food = normName food_name) = [] →
      applyLearningCorrections db food_name confidence =
        (food_name, confidence)) ∧
    (∀ best,
      selectBest (db.filter fun e => e.predicted_food = normName food_name) =
          some best →
        best ∈ (db.filter fun e => e.predicted_food = normName food_name) ∧
        (∀ e ∈ db.filter fun e => e.predicted_food = normName food_name,
          leEntry e best) ∧
        applyLearningCorrections db food_name confidence =
          (pyTitle best.correct_food,
            min (confidence * best.confidence_boost) 95) ∧
        min (confidence * best.confidence_boost) 95 ≤ 95) := by
  constructor
  · intro h
    simp only [applyLearningCorrections, h, selectBest, List.foldl_nil]
  · intro best hsel
    obtain ⟨hmem, hall⟩ := selectBest_spec _ _ hsel
    refine ⟨hmem, hall, ?_, min_le_right _ _⟩
    simp only [applyLearningCorrections, hsel, pymin_eq_min]

/-- Witness for C2, and the spec's scenario: a stored correction
hamburger → cheeseburger with boost 1.15 turns a "Hamburger" prediction
at 70% into ("Cheeseburger", 80.5%), below the 95.0 cap. -/
theorem c2_apply_learning_corrections_witness :
    applyLearningCorrections
        [⟨"hamburger", "cheeseburger", 1, 23/20, 0⟩] "Hamburger" 70 =
      ("Cheeseburger", 161/2) ∧ (161/2 : ℚ) ≤ 95 := by
  have hnorm : normName "Hamburger" = "hamburger" := rfl
  have hsel : selectBest
      ([⟨"hamburger", "cheeseburger", 1, 23/20, 0⟩].filter
        fun e => e.predicted_food = normName "Hamburger") =
      some ⟨"hamburger", "cheeseburger", 1, 23/20, 0⟩ := by
    simp [hnorm, selectBest, selectBestStep]
  have h := (c2_apply_learning_corrections
      [⟨"hamburger", "cheeseburger", 1, 23/20, 0⟩] "Hamburger" 70).2 _ hsel
  have happ := h.2.2.1
  have htitle : pyTitle "cheeseburger" = "Cheeseburger" := rfl
  rw [htitle] at happ
  have hval : min ((70 : ℚ) * (23/20)) 95 = 161/2 := by norm_num
  rw [hval] at happ
  exact ⟨happ, by norm_num⟩

theorem processCorrections_go (key : String × String) (t : List ℚ) :
    ∀ (n : ℕ) (s : ℚ), 0 < n →
      List.foldl (fun db c => cacheGetOrCreate db key c)
          [(key, ⟨n, s / (n : ℚ)⟩)] t =
        [(key, ⟨n + t.length, (s + t.sum) / ((n + t.length : ℕ) : ℚ)⟩)] := by
  induction t with
  | nil =>
    intro n s hn
    simp
  | cons c t ih =>
    intro n s hn
    rw [List.foldl_cons]
    have hne : (n : ℚ) ≠ 0 := Nat.cast_ne_zero.mpr (Nat.pos_iff_ne_zero.mp hn)
    have hstep : cacheGetOrCreate [(key, ⟨n, s / (n : ℚ)⟩)] key c =
        [(key, ⟨n + 1, (s + c) / ((n + 1 : ℕ) : ℚ)⟩)] := by
      have hcast : (((n + 1 : ℕ) : ℚ)) - 1 = (n : ℚ) := by
        push_cast
        ring
      simp only [cacheGetOrCreate, if_pos rfl, List.cons.injEq, Prod.mk.injEq,
        CacheStats.mk.injEq, and_true, true_and]
      rw [hcast, div_mul_cancel₀ _ hne]
      simp
    rw [hstep, ih (n + 1) (s + c) (Nat.succ_pos n)]
    have hlen : n + 1 + t.length = n + (c :: t).length := by
      simp
      omega
    have hsum : s + c + t.sum = s + (c :: t).sum := by
      simp [List.sum_cons]
      ring
    rw [hlen, hsum]

/-- **C3.** Processing k corrective submissions for the same
(predicted_food, correct_food) pair with confidences c₁..cₖ leaves one
cache entry with occurrence_count = k and average_original_confidence
equal to the arithmetic mean (c₁+⋯+cₖ)/k: the incremental update
`(avg × (n-1) + value) / n` with the post-increment count n keeps the
running mean exact. -/
theorem c3_incremental_mean (predicted correct : String) (confs : List ℚ)
    (h : confs ≠ []) :
    processCorrections [] predicted correct confs =
      [((normName predicted, normName correct),
        ⟨confs.length, confs.sum / (confs.length : ℚ)⟩)] := by
  obtain ⟨c, t, rfl⟩ := List.exists_cons_of_ne_nil h
  rw [processCorrections, List.foldl_cons]
  simp only [updateLearningCache]
  have h1 : cacheGetOrCreate [] (normName predicted, normName correct) c =
      [((normName predicted, normName correct), ⟨1, c⟩)] := rfl
  rw [h1]
  have h2 : (⟨1, c⟩ : CacheStats) = ⟨1, c / ((1 : ℕ) : ℚ)⟩ := by
    norm_num
  rw [h2, processCorrections_go _ t 1 c Nat.one_pos]
  have hlen : 1 + t.length = (c :: t).length := by
    simp
    omega
  have hsum : c + t.sum = (c :: t).sum := by
    simp
  rw [hlen, hsum]

/-- Witness for C3: two corrections at 70 and 80 yield count 2 and
average 75. -/
theorem c3_incremental_mean_witness :
    processCorrections [] "Hamburger " "Cheeseburger" [70, 80] =
      [(("hamburger", "cheeseburger"), ⟨2, 75⟩)] := by
  have h := c3_incremental_mean "Hamburger " "Cheeseburger" [70, 80] (by simp)
  rw [h]
  norm_num [show normName "Hamburger " = "hamburger" from rfl,
    show normName "Cheeseburger" = "cheeseburger" from rfl]

theorem firstUsable_cons_some (d : NutDict) (l : List (Option NutDict)) :
    firstUsable (some d :: l) =
      if 0 < d.calories.getD 0 then some d else firstUsable l := rfl

theorem firstUsable_cons_none (l : List (Option NutDict)) :
    firstUsable (none :: l) = firstUsable l := rfl

theorem firstUsable_eq_none (rs : List (Option NutDict))
    (h : ∀ r ∈ rs, ∀ d, r = some d → d.calories.getD 0 ≤ 0) :
    firstUsable rs = none := by
  induction rs with
  | nil => rfl
  | cons r t ih =>
    have ht : firstUsable t = none :=
      ih fun r' hr' => h r' (List.mem_cons_of_mem _ hr')
    cases r with
    | none => simpa [firstUsable] using ht
    | some d =>
      have hd := h (some d) (List.mem_cons_self _ _) d rfl
      have : ¬(0 < d.calories.getD 0) := not_lt.mpr hd
      simpa [firstUsable, this] using ht

theorem firstUsable_pos (rs : List (Option NutDict)) :
    ∀ d, firstUsable rs = some d → 0 < d.calories.getD 0 := by
  induction rs with
  | nil => intro d h; simp [firstUsable] at h
  | cons r t ih =>
    intro d h
    cases r with
    | none =>
      rw [firstUsable] at h
      exact ih d h
    | some d' =>
      rw [firstUsable] at h
      by_cases hc : 0 < d'.calories.getD 0
      · rw [if_pos hc] at h
        injection h with h
        subst h
        exact hc
      · rw [if_neg hc] at h
        exact ih d h

theorem firstUsable_append_unusable (rs : List (Option NutDict))
    (r : Option NutDict) (h : ∀ d, r = some d → d.calories.getD 0 ≤ 0) :
    firstUsable (rs ++ [r]) = firstUsable rs := by
  induction rs with
  | nil =>
    cases r with
    | none => rfl
    | some d =>
      have hd := h d rfl
      simp only [List.nil_append, firstUsable_cons_some,
        if_neg (not_lt.mpr hd)]
  | cons r' t ih =>
    cases r' with
    | none =>
      rw [List.cons_append, firstUsable_cons_none, firstUsable_cons_none, ih]
    | some d' =>
      rw [List.cons_append, firstUsable_cons_some, firstUsable_cons_some, ih]

/-- **C4.** When no external source yields a usable record the resolver
returns the static-table answer: exact table hits and substring table
hits come back tagged `mock_data`, and with no table hit at all the
fixed default record {200 kcal, 10 g protein, 8 g fat, 25 g carbs, 2 g
fiber, 5 g sugar, 100 mg sodium} tagged `default_fallback` is
returned. -/
theorem c4_nutrition_fallback (sourceResults : List (Option NutDict))
    (food_name : String) :
    ((∀ r ∈ sourceResults, ∀ d, r = some d → d.calories.getD 0 ≤ 0) →
      getComprehensiveNutrition sourceResults food_name =
        getMockNutritionData food_name) ∧
    (∀ kv, mockTable.find? (fun kv => kv.1 = mockClean food_name) = some kv →
      getMockNutritionData food_name = { kv.2 with source := "mock_data" }) ∧
    (mockTable.find? (fun kv => kv.1 = mockClean food_name) = none →
      ∀ kv, mockTable.find?
          (fun kv => pyIn kv.1 (mockClean food_name) ||
            pyIn (mockClean food_name) kv.1) = some kv →
        getMockNutritionData food_name = { kv.2 with source := "mock_data" }) ∧
    (mockTable.find? (fun kv => kv.1 = mockClean food_name) = none →
      mockTable.find?
          (fun kv => pyIn kv.1 (mockClean food_name) ||
            pyIn (mockClean food_name) kv.1) = none →
      getMockNutritionData food_name = defaultFallbackNutrition) := by
  refine ⟨?_, ?_, ?_, ?_⟩
  · intro h
    rw [getComprehensiveNutrition, firstUsable_eq_none sourceResults h]
  · intro kv hkv
    rw [getMockNutritionData]
    rw [hkv]
  · intro hnone kv hkv
    rw [getMockNutritionData]
    rw [hnone, hkv]
  · intro hnone hnone2
    rw [getMockNutritionData]
    rw [hnone, hnone2]

/-- Witness for C4, and the spec's scenario: sources A and B fail,
source C (Google) extracts only a calories figure — below the
2-of-4-fields threshold, so it returns nothing — and resolution for
"pizza" falls to the static-table entry {266 kcal, 11 g protein, 10 g
fat, 33 g carbs} tagged `mock_data`. -/
theorem c4_nutrition_fallback_witness :
    getComprehensiveNutrition
        [none, none, searchNutritionGoogle (some 250) none none none]
        "pizza" =
      { mkNut 266 11 10 33 (23/10) (36/10) 598 "" with source := "mock_data" } := by
  have hgoogle : searchNutritionGoogle (some 250) none none none = none := by
    norm_num [searchNutritionGoogle]
  have h := c4_nutrition_fallback
      [none, none, searchNutritionGoogle (some 250) none none none] "pizza"
  have hchain := h.1 (by
    intro r hr d hd
    rw [hgoogle] at hr
    simp at hr
    subst hr
    simp at hd)
  have hclean : mockClean "pizza" = "pizza" := rfl
  have hfind : mockTable.find? (fun kv => kv.1 = mockClean "pizza") =
      some ("pizza", mkNut 266 11 10 33 (23/10) (36/10) 598 "") := by
    simp [mockTable, hclean]
  have hmock := h.2.1 _ hfind
  rw [hchain, hmock]

/-- **C10.** The resolution chain accepts a source record only when its
calories value (`.get('calories', 0)`) is strictly positive; the Google
source, fed at least 2 of the 4 macro fields but no calories figure,
returns a record whose calories default to 0, so the chain skips it and
resolution continues exactly as if the source had returned nothing. -/
theorem c10_calories_gate (sourceResults : List (Option NutDict)) :
    (∀ d, firstUsable sourceResults = some d → 0 < d.calories.getD 0) ∧
    (∀ prot carbs : ℚ,
      searchNutritionGoogle none (some prot) (some carbs) none =
        some ⟨none, some prot, none, some carbs, some 0, some 0, some 0,
          "google_search"⟩) ∧
    (∀ prot carbs : ℚ,
      firstUsable (sourceResults ++
          [searchNutritionGoogle none (some prot) (some carbs) none]) =
        firstUsable sourceResults) := by
  refine ⟨firstUsable_pos sourceResults, ?_, ?_⟩
  · intro prot carbs
    norm_num [searchNutritionGoogle]
  · intro prot carbs
    refine firstUsable_append_unusable sourceResults _ ?_
    intro d hd
    norm_num [searchNutritionGoogle] at hd
    rw [← hd]
    simp

/-- Witness for C10: a usable pizza record is accepted with calories
266 > 0, and a calorie-less Google record appended to the chain leaves
the chain's outcome unchanged. -/
theorem c10_calories_gate_witness :
    (0 : ℚ) <
      ((mkNut 266 11 10 33 (23/10) (36/10) 598 "usda").calories.getD 0) ∧
    firstUsable ([some (mkNut 266 11 10 33 (23/10) (36/10) 598 "usda")] ++
        [searchNutritionGoogle none (some 5) (some 20) none]) =
      firstUsable [some (mkNut 266 11 10 33 (23/10) (36/10) 598 "usda")] := by
  have h := c10_calories_gate
      [some (mkNut 266 11 10 33 (23/10) (36/10) 598 "usda")]
  refine ⟨?_, h.2.2 5 20⟩
  refine h.1 _ ?_
  norm_num [firstUsable, mkNut]

theorem tierSum_updateSystemStatistics (s : Stats)
    (confidence processing_time : ℚ) (data_source : String)
    (h : s.high_confidence_predictions + s.medium_confidence_predictions +
      s.low_confidence_predictions = s.total_predictions) :
    (updateSystemStatistics s confidence processing_time
        data_source).high_confidence_predictions +
      (updateSystemStatistics s confidence processing_time
        data_source).medium_confidence_predictions +
      (updateSystemStatistics s confidence processing_time
        data_source).low_confidence_predictions =
      (updateSystemStatistics s confidence processing_time
        data_source).total_predictions := by
  simp only [updateSystemStatistics]
  split_ifs <;> simp <;> omega

theorem tierSum_updateStatisticsFromFeedback (s : Stats)
    (feedback_type : String) (original_confidence : ℚ)
    (h : s.high_confidence_predictions + s.medium_confidence_predictions +
      s.low_confidence_predictions = s.total_predictions) :
    (updateStatisticsFromFeedback s feedback_type
        original_confidence).high_confidence_predictions +
      (updateStatisticsFromFeedback s feedback_type
        original_confidence).medium_confidence_predictions +
      (updateStatisticsFromFeedback s feedback_type
        original_confidence).low_confidence_predictions =
      (updateStatisticsFromFeedback s feedback_type
        original_confidence).total_predictions := by
  simp only [updateStatisticsFromFeedback]
  split_ifs <;> (try simp) <;> omega

theorem tierSum_foldl (ops : List StatsOp) :
    ∀ s : Stats,
      s.high_confidence_predictions + s.medium_confidence_predictions +
        s.low_confidence_predictions = s.total_predictions →
      (ops.foldl applyStatsOp s).high_confidence_predictions +
        (ops.foldl applyStatsOp s).medium_confidence_predictions +
        (ops.foldl applyStatsOp s).low_confidence_predictions =
        (ops.foldl applyStatsOp s).total_predictions := by
  induction ops with
  | nil => intro s h; exact h
  | cons op t ih =>
    intro s h
    rw [List.foldl_cons]
    refine ih _ ?_
    cases op with
    | prediction confidence processing_time data_source =>
      exact tierSum_updateSystemStatistics s confidence processing_time
        data_source h
    | feedback feedback_type original_confidence =>
      exact tierSum_updateStatisticsFromFeedback s feedback_type
        original_confidence h

/-- **C5.** Starting from the zero-initialized daily row, every sequence
of prediction and feedback operations keeps
high + medium + low confidence prediction counts equal to
total_predictions: each recorded prediction bumps the total and exactly
one tier bucket (≥80 high, ≥60 medium, else low), and feedback never
touches these counters. -/
theorem c5_tier_sum_invariant (ops : List StatsOp) :
    (runStatsOps ops).high_confidence_predictions +
      (runStatsOps ops).medium_confidence_predictions +
      (runStatsOps ops).low_confidence_predictions =
      (runStatsOps ops).total_predictions :=
  tierSum_foldl ops zeroStats rfl

/-- **C8 counterexample.** A prediction whose nutrition carries the
`fallback` tag — the tag `_get_fallback_nutrition` attaches when the
nutrition lookup itself throws — still increments
`successful_nutrition_searches`: the code only screens out
`default_fallback` and `mock_data`. -/
theorem c8_fallback_counts_as_successful :
    (updateSystemStatistics zeroStats 85 1
        "fallback").successful_nutrition_searches ≠
      zeroStats.successful_nutrition_searches := by
  simp [updateSystemStatistics, zeroStats]
  norm_num

/-- **C8 (amended).** Every recorded prediction increments
`total_nutrition_searches` by 1, and increments
`successful_nutrition_searches` by 1 unless the nutrition source tag is
exactly `default_fallback` or `mock_data`; any other tag — including the
`fallback` tag of the exception path — counts as successful. -/
theorem c8_nutrition_search_counters (s : Stats)
    (confidence processing_time : ℚ) (data_source : String) :
    (updateSystemStatistics s confidence processing_time
        data_source).total_nutrition_searches =
      s.total_nutrition_searches + 1 ∧
    (data_source = "default_fallback" ∨ data_source = "mock_data" →
      (updateSystemStatistics s confidence processing_time
          data_source).successful_nutrition_searches =
        s.successful_nutrition_searches) ∧
    (data_source ≠ "default_fallback" ∧ data_source ≠ "mock_data" →
      (updateSystemStatistics s confidence processing_time
          data_source).successful_nutrition_searches =
        s.successful_nutrition_searches + 1) := by
  refine ⟨?_, ?_, ?_⟩
  · simp only [updateSystemStatistics]
    split_ifs <;> simp
  · intro hsrc
    simp only [updateSystemStatistics]
    split_ifs <;> simp_all
  · intro hsrc
    simp only [updateSystemStatistics]
    split_ifs <;> simp_all

/-- Witness for C8: a `mock_data` prediction bumps the search total but
not the success count. -/
theorem c8_nutrition_search_counters_witness :
    (updateSystemStatistics zeroStats 85 1
        "mock_data").total_nutrition_searches =
      zeroStats.total_nutrition_searches + 1 ∧
    (updateSystemStatistics zeroStats 85 1
        "mock_data").successful_nutrition_searches =
      zeroStats.successful_nutrition_searches := by
  have h := c8_nutrition_search_counters zeroStats 85 1 "mock_data"
  exact ⟨h.1, h.2.1 (Or.inr rfl)⟩

/-- **C9.** Nothing bounds `correct_predictions` by
`total_predictions`: one recorded prediction followed by two
confirmation feedbacks leaves the row with correct_predictions = 2
against total_predictions = 1, and the recomputed accuracy_rate is
200 > 100. -/
theorem c9_accuracy_can_exceed_100 :
    runStatsOps
        [.prediction 85 1 "usda",
         .feedback "confirmation" 85,
         .feedback "confirmation" 85] =
      ⟨1, 2, 200, 1, 2, 0, 0, 0, 0, 0, 2, 1, 1, 1⟩ ∧
    (runStatsOps
        [.prediction 85 1 "usda",
         .feedback "confirmation" 85,
         .feedback "confirmation" 85]).total_predictions <
      (runStatsOps
        [.prediction 85 1 "usda",
         .feedback "confirmation" 85,
         .feedback "confirmation" 85]).correct_predictions ∧
    (100 : ℚ) <
      (runStatsOps
        [.prediction 85 1 "usda",
         .feedback "confirmation" 85,
         .feedback "confirmation" 85]).accuracy_rate := by
  have h : runStatsOps
      [.prediction 85 1 "usda",
       .feedback "confirmation" 85,
       .feedback "confirmation" 85] =
      ⟨1, 2, 200, 1, 2, 0, 0, 0, 0, 0, 2, 1, 1, 1⟩ := by
    simp [runStatsOps, applyStatsOp, updateSystemStatistics,
      updateStatisticsFromFeedback, zeroStats]
    norm_num
  refine ⟨h, ?_, ?_⟩ <;> rw [h] <;> norm_num

end FoodAnalyzer
